import Mathlib

/-!
Shallow embedding of the codebase-intelligence query and aggregation layer
(`src/mcp-server/tools/intelligence-tools.ts` and the validation-schema module)
together with theorems settling the frozen claims about it.

Conventions used by the embedding:
- JavaScript strings are Lean `String`s; code snippets whose lengths matter are
  `List Char` (one entry per UTF-16 unit of the original, which coincide for the
  inputs at hand).
- JavaScript `undefined`/optional fields are `Option`; JS truthiness tests on
  strings (`if (x)`) are made explicit (`none` or the empty string are falsy,
  arrays and objects are always truthy).
- The external SQLite store is a `Store` value threaded explicitly; external
  collaborators (pattern engine, router) are parameters of the operations.
- A store call that may throw during the contribution flow is modelled by an
  explicit failure-injection parameter of type `Option String` (the thrown
  message), mirroring the try/catch structure of `contributeInsights`.
-/

namespace InMemoria

/-- JS `String.prototype.toLowerCase`, restricted to the ASCII data handled here. -/
def jsToLower (s : String) : String := ⟨s.data.map Char.toLower⟩

/-- Does the second list start with the first one (character-wise)? -/
def startsWithChars : List Char → List Char → Bool
  | [], _ => true
  | _ :: _, [] => false
  | a :: as, b :: bs => a == b && startsWithChars as bs

/-- Is `needle` a contiguous substring of the second list? -/
def containsChars (needle : List Char) : List Char → Bool
  | [] => needle.isEmpty
  | b :: bs => startsWithChars needle (b :: bs) || containsChars needle bs

/-- JS `hay.includes(needle)` on strings. -/
def strContainsSub (hay needle : String) : Bool :=
  containsChars needle.toList hay.toList

/-- JS `n || d` for an optional numeric argument: an absent value or 0 is falsy
and replaced by the default. Models `args.limit || 10`. -/
def jsOrDefaultNat (o : Option Nat) (d : Nat) : Nat :=
  match o with
  | some n => if n = 0 then d else n
  | none => d

/-- A semantic concept row as read back from the store
(`db.getSemanticConcepts()`): name, type tag, confidence, relationship map
(key to related-entity identifiers), file location, timestamps, and the
optional evolution-history change list. -/
structure SemanticConcept where
  id : String
  conceptName : String
  conceptType : String
  confidenceScore : ℚ
  relationships : List (String × List String)
  filePath : String
  createdAt : Nat
  updatedAt : Nat
  evolutionChanges : Option (List String)
deriving DecidableEq

/-- The response-safe insight record built by `getSemanticInsights`. -/
structure SemanticInsight where
  concept : String
  relationships : List String
  frequency : ℚ
  contexts : List String
  firstSeen : Nat
  lastModified : Nat
  changeCount : Nat
deriving DecidableEq

/-- The per-concept reshaping inside `getSemanticInsights`: relationship keys
only, frequency approximated as confidence times 100, the originating file as
the single context, and the evolution change count defaulting to 0. -/
def conceptToInsight (c : SemanticConcept) : SemanticInsight :=
  { concept := c.conceptName
    relationships := c.relationships.map Prod.fst
    frequency := c.confidenceScore * 100
    contexts := [c.filePath]
    firstSeen := c.createdAt
    lastModified := c.updatedAt
    changeCount := (c.evolutionChanges.getD []).length }

/-- The filter predicate of `getSemanticInsights`: the concept is dropped when a
truthy `conceptType` argument differs from its type, or when a truthy `query`
argument is not a case-insensitive substring of its name. An absent or empty
argument (falsy in JS) disables the corresponding test. -/
def conceptPasses (query conceptType : Option String) (c : SemanticConcept) : Bool :=
  (match conceptType with
   | some t => if t == "" then true else c.conceptType == t
   | none => true) &&
  (match query with
   | some s => if s == "" then true else strContainsSub (jsToLower c.conceptName) (jsToLower s)
   | none => true)

/-- Result shape of `getSemanticInsights`. -/
structure SemanticInsightsResult where
  insights : List SemanticInsight
  totalAvailable : Nat
deriving DecidableEq

/-- `getSemanticInsights`: filter all stored concepts, truncate the filtered
list to `args.limit || 10`, reshape each survivor, and report the full filtered
count as `totalAvailable`. -/
def getSemanticInsights (concepts : List SemanticConcept)
    (query conceptType : Option String) (limit : Option Nat) : SemanticInsightsResult :=
  let filtered := concepts.filter (conceptPasses query conceptType)
  let lim := jsOrDefaultNat limit 10
  { insights := (filtered.take lim).map conceptToInsight
    totalAvailable := filtered.length }

/-- A code example attached to a stored developer pattern; the `code` field may
be absent (`ex.code || ''` in the source). -/
structure PatternExample where
  code : Option (List Char)
deriving DecidableEq

/-- A developer pattern row as read from the store, restricted to the fields
the query layer consumes. -/
structure DeveloperPattern where
  patternId : String
  description : Option String
  frequency : Nat
  examples : List PatternExample
  confidence : ℚ
deriving DecidableEq

/-- The `truncateCode` helper shared by `getPatternRecommendations` and
`getDeveloperProfile`: code of length at most 150 passes through unchanged,
longer code is cut to its first 150 characters with an ellipsis appended. -/
def truncateCode (code : List Char) : List Char :=
  if code.length ≤ 150 then code else code.take 150 ++ ['.', '.', '.']

/-- The example shaping applied per pattern: keep at most the first 2 examples
and truncate each one (an absent code field becomes the empty snippet). -/
def shapeExamples (exs : List PatternExample) : List (List Char) :=
  (exs.take 2).map (fun ex => truncateCode (ex.code.getD []))

/-- The shaped pattern record emitted to callers. -/
structure PatternRecommendation where
  pattern : String
  description : String
  confidence : ℚ
  examples : List (List Char)
  reasoning : String
deriving DecidableEq

/-- Per-pattern shaping inside `getPatternRecommendations`. -/
def recommendationOfPattern (p : DeveloperPattern) : PatternRecommendation :=
  { pattern := p.patternId
    description := p.description.getD "Pattern recommendation"
    confidence := p.confidence
    examples := shapeExamples p.examples
    reasoning := "Based on " ++ toString p.frequency ++ " similar occurrences in your codebase" }

/-- Result shape of `getPatternRecommendations`. -/
structure RecommendationsResult where
  recommendations : List PatternRecommendation
  reasoning : String
  relatedFiles : Option (List String)
deriving DecidableEq

/-- `getPatternRecommendations`: shape the patterns ranked by the external
pattern engine (`relevantPatterns` is that collaborator output) and attach the
related-files list only when the flag is passed as true. -/
def getPatternRecommendations (relevantPatterns : List DeveloperPattern)
    (includeRelatedFiles : Option Bool) (relatedFiles : List String) : RecommendationsResult :=
  { recommendations := relevantPatterns.map recommendationOfPattern
    reasoning := "Found " ++ toString relevantPatterns.length ++
      " relevant patterns based on your coding history and current context"
    relatedFiles := if includeRelatedFiles == some true then some relatedFiles else none }

/-- Per-pattern shaping inside `getDeveloperProfile` (different fallback text
and reasoning, identical example bounding). -/
def profilePatternOfPattern (p : DeveloperPattern) : PatternRecommendation :=
  { pattern := p.patternId
    description := p.description.getD "Developer pattern"
    confidence := p.confidence
    examples := shapeExamples p.examples
    reasoning := "Used " ++ toString p.frequency ++ " times" }

/-- The `preferredPatterns` block of `getDeveloperProfile`: top 10 stored
patterns, shaped. -/
def developerProfilePreferredPatterns (patterns : List DeveloperPattern) :
    List PatternRecommendation :=
  (patterns.take 10).map profilePatternOfPattern

/-- The routing result produced by the external
`patternEngine.routeRequestToFiles` collaborator. -/
structure FileRouting where
  intendedFeature : String
  targetFiles : List String
  workType : String
  suggestedStartPoint : String
  confidence : ℚ
  reasoning : String
deriving DecidableEq

/-- The approach prediction produced by the external
`patternEngine.predictApproach` collaborator. -/
structure ApproachPrediction where
  approach : String
  confidence : ℚ
  reasoning : String
  patterns : List String
  complexity : String
deriving DecidableEq

/-- Response shape of `predictCodingApproach`; `fileRouting = none` models the
field being absent from the returned object. -/
structure PredictResult where
  approach : String
  confidence : ℚ
  reasoning : String
  suggestedPatterns : List String
  estimatedComplexity : String
  fileRouting : Option FileRouting
deriving DecidableEq

/-- `predictCodingApproach`: always emit the prediction; include file routing
unless the toggle is explicitly `false` (`args.includeFileRouting !== false`),
and attach the routing sub-object only when the router returned one. -/
def predictCodingApproach (prediction : ApproachPrediction)
    (routing : Option FileRouting) (includeFileRouting : Option Bool) : PredictResult :=
  let base : PredictResult :=
    { approach := prediction.approach
      confidence := prediction.confidence
      reasoning := prediction.reasoning
      suggestedPatterns := prediction.patterns
      estimatedComplexity := prediction.complexity
      fileRouting := none }
  let includeRouting := !(includeFileRouting == some false)
  if includeRouting then
    match routing with
    | some r => { base with fileRouting := some r }
    | none => base
  else base

/-- A work-session row; `lastFeature` may be unset. -/
structure WorkSession where
  id : String
  projectPath : String
  currentFiles : List String
  completedTasks : List String
  pendingTasks : List String
  blockers : List String
  lastFeature : Option String
deriving DecidableEq

/-- A project-decision row. -/
structure ProjectDecision where
  id : String
  projectPath : String
  decisionKey : String
  decisionValue : String
deriving DecidableEq

/-- An AI-insight row as written by `insertAIInsight`; the free-form content
and impact maps are key/value association lists. -/
structure AIInsightRow where
  insightId : String
  insightType : String
  insightContent : List (String × String)
  confidenceScore : ℚ
  sourceAgent : String
  validationStatus : String
  impactPrediction : List (String × String)
deriving DecidableEq

/-- The portion of the persistent store touched by the contribution and
session-merge flow. -/
structure Store where
  insights : List AIInsightRow
  sessions : List WorkSession
  decisions : List ProjectDecision
deriving DecidableEq

/-- Store operation `insertAIInsight`: append the new row. -/
def Store.insertAIInsight (st : Store) (row : AIInsightRow) : Store :=
  { st with insights := st.insights ++ [row] }

/-- Store operation `getCurrentWorkSession`: the current session for a project
path (the store keeps at most one; modelled as the first matching row). -/
def Store.getCurrentWorkSession (st : Store) (path : String) : Option WorkSession :=
  st.sessions.find? (fun s => s.projectPath == path)

/-- Store operation `createWorkSession`: append the new session row. -/
def Store.createWorkSession (st : Store) (s : WorkSession) : Store :=
  { st with sessions := st.sessions ++ [s] }

/-- Store operation `updateWorkSession(id, updates)`: rewrite the session rows
with the given identifier through the field updater. -/
def Store.updateWorkSession (st : Store) (id : String) (f : WorkSession → WorkSession) : Store :=
  { st with sessions := st.sessions.map (fun s => if s.id == id then f s else s) }

/-- Store operation `upsertProjectDecision`: replace the decision with the same
project path and key when present, append otherwise (spec section 3: decisions
are keyed per project and not versioned). -/
def Store.upsertProjectDecision (st : Store) (d : ProjectDecision) : Store :=
  if st.decisions.any (fun x => x.projectPath == d.projectPath && x.decisionKey == d.decisionKey) then
    { st with decisions :=
        (st.decisions.map (fun x =>
          if x.projectPath == d.projectPath && x.decisionKey == d.decisionKey then d else x)) }
  else
    { st with decisions := st.decisions ++ [d] }

/-- The optional session update carried by a contribution. -/
structure SessionUpdate where
  files : Option (List String)
  feature : Option String
  tasks : Option (List String)
  decisions : Option (List (String × String))
deriving DecidableEq

/-- JS truthiness of an optional string field: absent or empty is falsy.
Models `if (sessionUpdate.feature)`. -/
def featTruthy : Option String → Bool
  | some s => !(s == "")
  | none => false

/-- Does the update carry at least one truthy session field? Mirrors the
`Object.keys(updates).length > 0` guard. -/
def hasUpdates (u : SessionUpdate) : Bool :=
  u.files.isSome || featTruthy u.feature || u.tasks.isSome

/-- The field overwrite applied to an existing session: truthy update fields
replace the stored value, all other fields are kept. -/
def mergeSessionUpdate (u : SessionUpdate) (s : WorkSession) : WorkSession :=
  { s with
    currentFiles := match u.files with | some fs => fs | none => s.currentFiles
    lastFeature := if featTruthy u.feature then u.feature else s.lastFeature
    pendingTasks := match u.tasks with | some ts => ts | none => s.pendingTasks }

/-- The session created when no current session exists: current files and
pending tasks seeded from the update, completed tasks and blockers empty, and
the last feature taken from the update (`newId` stands for the generated
nanoid). -/
def seededSession (projectPath newId : String) (u : SessionUpdate) : WorkSession :=
  { id := newId
    projectPath := projectPath
    currentFiles := u.files.getD []
    completedTasks := []
    pendingTasks := u.tasks.getD []
    blockers := []
    lastFeature := u.feature }

/-- The second half of the session step: re-fetch the current session and, when
the update carries at least one truthy field, rewrite that session through the
field overwrite. -/
def applyTruthyUpdates (st1 : Store) (projectPath : String) (u : SessionUpdate) : Store :=
  match st1.getCurrentWorkSession projectPath with
  | none => st1
  | some s =>
    if hasUpdates u then st1.updateWorkSession s.id (mergeSessionUpdate u) else st1

/-- The session part of the private `updateWorkSession` tool method: create a
seeded session when none exists for the project path, then re-fetch and apply
the truthy update fields. -/
def updateWorkSessionCore (st : Store) (projectPath newId : String) (u : SessionUpdate) : Store :=
  match st.getCurrentWorkSession projectPath with
  | none =>
    applyTruthyUpdates (st.createWorkSession (seededSession projectPath newId u)) projectPath u
  | some _ => applyTruthyUpdates st projectPath u

/-- The private `updateWorkSession` tool method: the session create-or-merge
step followed by the independent upsert of every decision entry. -/
def updateWorkSession (st : Store) (projectPath newId : String) (u : SessionUpdate) : Store :=
  let st2 := updateWorkSessionCore st projectPath newId u
  match u.decisions with
  | none => st2
  | some ds =>
    ds.foldl
      (fun acc kv => acc.upsertProjectDecision
        { id := "", projectPath := projectPath, decisionKey := kv.1, decisionValue := kv.2 })
      st2

/-- The arguments of `contributeInsights` after JSON decoding. -/
structure AIInsightArgs where
  insightType : String
  content : List (String × String)
  confidence : ℚ
  sourceAgent : String
  impactPrediction : Option (List (String × String))
  sessionUpdate : Option SessionUpdate
deriving DecidableEq

/-- Membership in the fixed insight-kind enumeration. -/
def validAIInsightType (t : String) : Bool :=
  t == "bug_pattern" || t == "optimization" || t == "refactor_suggestion" || t == "best_practice"

/-- Modelled from the spec: `AIInsightsSchema` lives in `../types.js`, which is
not under `src/`; its constraints are taken from spec section 4.6 and mirror
`ContributeInsightsSchema` in the in-source schema module (kind in the fixed
enumeration, confidence within `[0, 1]`, non-empty source agent). A failed
parse throws a field-path-qualified validation error. -/
def validateAIInsights (a : AIInsightArgs) : Except String Unit :=
  if !(validAIInsightType a.insightType) then
    Except.error "type: invalid enum value"
  else if a.confidence < 0 then
    Except.error "confidence: number must be greater than or equal to 0"
  else if a.confidence > 1 then
    Except.error "confidence: number must be less than or equal to 1"
  else if a.sourceAgent == "" then
    Except.error "sourceAgent: source agent identifier is required"
  else
    Except.ok ()

/-- The insight row persisted by `contributeInsights`; `newId` stands for the
generated timestamp-plus-random identifier. -/
def mkInsightRow (a : AIInsightArgs) (newId : String) : AIInsightRow :=
  { insightId := newId
    insightType := a.insightType
    insightContent := a.content
    confidenceScore := a.confidence
    sourceAgent := a.sourceAgent
    validationStatus := "pending"
    impactPrediction := a.impactPrediction.getD [] }

/-- Result shape of `contributeInsights`; `sessionUpdated = none` models the
field being spread into the response only when true. -/
structure ContributeResult where
  success : Bool
  insightId : String
  message : String
  sessionUpdated : Option Bool
deriving DecidableEq

/-- `contributeInsights`: parse the insight before the try block (a validation
error therefore propagates and nothing is persisted), insert the insight row,
then run the session merge when an update is present. `mergeThrows` injects a
store exception raised during the session merge or decision upsert; the catch
block converts it into a structured failure result with an empty identifier,
leaving the already-inserted insight in place. -/
def contributeInsights (a : AIInsightArgs) (newId projectPath sessionId : String)
    (mergeThrows : Option String) (st : Store) : Except String ContributeResult × Store :=
  match validateAIInsights a with
  | Except.error e => (Except.error e, st)
  | Except.ok _ =>
    let st1 := st.insertAIInsight (mkInsightRow a newId)
    match a.sessionUpdate with
    | none =>
      (Except.ok
        { success := true, insightId := newId
          message := "Insight contributed successfully and pending validation"
          sessionUpdated := none }, st1)
    | some u =>
      match mergeThrows with
      | some err =>
        (Except.ok
          { success := false, insightId := ""
            message := "Failed to contribute insight: " ++ err
            sessionUpdated := none }, st1)
      | none =>
        (Except.ok
          { success := true, insightId := newId
            message := "Insight contributed successfully and pending validation"
            sessionUpdated := some true }, updateWorkSession st1 projectPath sessionId u)

/-- The learning-status block appended to every blueprint. -/
structure LearningStatus where
  hasIntelligence : Bool
  isStale : Bool
  conceptsStored : Nat
  patternsStored : Nat
  recommendation : String
  message : String
deriving DecidableEq

/-- `getLearningStatus`: read concepts and patterns (the reads may throw, which
the surrounding try/catch converts into the fallback block), report presence of
intelligence, a placeholder staleness of false, and the derived recommendation
and message. -/
def getLearningStatus
    (fetch : Except String (List SemanticConcept × List DeveloperPattern)) : LearningStatus :=
  match fetch with
  | Except.ok (concepts, patterns) =>
    let hasIntelligence : Bool := concepts.length != 0 || patterns.length != 0
    let isStale : Bool := false
    { hasIntelligence := hasIntelligence
      isStale := isStale
      conceptsStored := concepts.length
      patternsStored := patterns.length
      recommendation := if hasIntelligence && !isStale then "ready" else "learning_recommended"
      message :=
        if hasIntelligence && !isStale then
          "Intelligence is ready! " ++ toString concepts.length ++ " concepts and " ++
            toString patterns.length ++ " patterns available."
        else
          "Learning recommended for optimal functionality." }
  | Except.error _ =>
    { hasIntelligence := false
      isStale := false
      conceptsStored := 0
      patternsStored := 0
      recommendation := "learning_needed"
      message := "No intelligence data available. Learning needed for optimal functionality." }

/-- An entry-point row read from the store. -/
structure EntryPoint where
  entryType : String
  filePath : String
  framework : Option String
deriving DecidableEq

/-- A key-directory row read from the store. -/
structure KeyDirectory where
  directoryPath : String
  directoryType : String
deriving DecidableEq

/-- A feature-map row read from the store. -/
structure FeatureMapEntry where
  featureName : String
  primaryFiles : List String
deriving DecidableEq

/-- JS object-key assignment inside a `reduce`: replace the value for an
existing key, append a new key at the end. -/
def objInsert {α : Type} (m : List (String × α)) (k : String) (v : α) : List (String × α) :=
  if m.any (fun kv => kv.1 == k) then
    m.map (fun kv => if kv.1 == k then (k, v) else kv)
  else
    m ++ [(k, v)]

/-- JS `[...new Set(l)]`: deduplicate keeping first occurrences. -/
def dedupKeepFirst (l : List String) : List String :=
  l.foldl (fun acc x => if x ∈ acc then acc else acc ++ [x]) []

/-- The tech stack of a blueprint: the de-duplicated non-falsy framework values
over the entry points. -/
def collectTechStack (eps : List EntryPoint) : List String :=
  dedupKeepFirst (((eps.map EntryPoint.framework).filterMap id).filter (fun s => !(s == "")))

/-- The entry-point map of a blueprint (type to file path, last write wins). -/
def entryPointsMap (eps : List EntryPoint) : List (String × String) :=
  eps.foldl (fun acc ep => objInsert acc ep.entryType ep.filePath) []

/-- The key-directory map of a blueprint (type to path, last write wins). -/
def keyDirsMap (dirs : List KeyDirectory) : List (String × String) :=
  dirs.foldl (fun acc d => objInsert acc d.directoryType d.directoryPath) []

/-- The feature map of a blueprint (feature name to primary files). -/
def featureMapOf (features : List FeatureMapEntry) : List (String × List String) :=
  features.foldl (fun acc f => objInsert acc f.featureName f.primaryFiles) []

/-- `inferArchitectureFromBlueprint`: the fixed precedence chain over resolved
frameworks and key directories. -/
def inferArchitectureFromBlueprint (frameworks : List String)
    (keyDirectories : List KeyDirectory) : String :=
  if frameworks.any (fun f => strContainsSub (jsToLower f) "react") then
    "Component-Based (React)"
  else if frameworks.any (fun f => strContainsSub (jsToLower f) "express") then
    "REST API (Express)"
  else if frameworks.any (fun f => strContainsSub (jsToLower f) "fastapi") then
    "REST API (FastAPI)"
  else if keyDirectories.any (fun d => d.directoryType == "services") then
    "Service-Oriented"
  else if keyDirectories.any (fun d => d.directoryType == "components") then
    "Component-Based"
  else if keyDirectories.any (fun d => d.directoryType == "models") &&
      keyDirectories.any (fun d => d.directoryType == "views") then
    "MVC Pattern"
  else
    "Modular"

/-- The blueprint response; `featureMap = none` models the field being absent. -/
structure Blueprint where
  techStack : List String
  entryPoints : List (String × String)
  keyDirectories : List (String × String)
  architecture : String
  featureMap : Option (List (String × List String))
  learningStatus : LearningStatus
deriving DecidableEq

/-- The body of `getProjectBlueprint` after argument validation: fold the store
rows into the response maps, infer the architecture over the de-duplicated tech
stack, include the feature map only when the (validated) flag is true and the
folded map is non-empty, and append the learning status. -/
def getProjectBlueprintCore (eps : List EntryPoint) (dirs : List KeyDirectory)
    (features : List FeatureMapEntry)
    (fetch : Except String (List SemanticConcept × List DeveloperPattern))
    (includeFeatureMap : Bool) : Blueprint :=
  let techStack := collectTechStack eps
  let fm : Option (List (String × List String)) :=
    if includeFeatureMap then some (featureMapOf features) else none
  { techStack := techStack
    entryPoints := entryPointsMap eps
    keyDirectories := keyDirsMap dirs
    architecture := inferArchitectureFromBlueprint techStack dirs
    featureMap :=
      match fm with
      | some m => if 0 < m.length then some m else none
      | none => none
    learningStatus := getLearningStatus fetch }

/-- The `includeFeatureMap` default declared by `GetProjectBlueprintSchema`
(`z.boolean().optional().default(true)`). -/
def parsedIncludeFeatureMap (includeFeatureMap : Option Bool) : Bool :=
  includeFeatureMap.getD true

/-- Modelled from the spec: the MCP server dispatch (not under `src/`)
validates arguments with `GetProjectBlueprintSchema` before invoking the tool,
so an omitted `includeFeatureMap` reaches the tool as the declared default of
true. The wire-level operation is therefore the composition of that parse with
the tool body. -/
def getProjectBlueprintOp (eps : List EntryPoint) (dirs : List KeyDirectory)
    (features : List FeatureMapEntry)
    (fetch : Except String (List SemanticConcept × List DeveloperPattern))
    (includeFeatureMap : Option Bool) : Blueprint :=
  getProjectBlueprintCore eps dirs features fetch (parsedIncludeFeatureMap includeFeatureMap)

deriving instance DecidableEq for Except

/-! Sample data used by the concrete witnesses and counterexamples below. -/

/-- A concrete stored concept. -/
def sampleConcept : SemanticConcept :=
  { id := "c0", conceptName := "DatabaseConnection", conceptType := "class",
    confidenceScore := 1, relationships := [("uses", ["c1"])], filePath := "src/db.ts",
    createdAt := 1, updatedAt := 2, evolutionChanges := none }

/-- The empty store. -/
def emptyStore : Store := ⟨[], [], []⟩

/-! Helper lemmas. -/

/-- The session-field overwrite never changes the project path. -/
theorem mergeSessionUpdate_projectPath (u : SessionUpdate) (s : WorkSession) :
    (mergeSessionUpdate u s).projectPath = s.projectPath := rfl

/-- Finding the current session after a keyed session rewrite: the rewrite
preserves project paths, so it commutes with the lookup. -/
theorem getCurrentWorkSession_updateRecord (st : Store) (path id : String)
    (f : WorkSession → WorkSession) (hf : ∀ x, (f x).projectPath = x.projectPath) :
    (st.updateWorkSession id f).getCurrentWorkSession path
      = (st.getCurrentWorkSession path).map (fun s => if s.id == id then f s else s) := by
  unfold Store.getCurrentWorkSession Store.updateWorkSession
  rw [List.find?_map]
  have hpg : ((fun s : WorkSession => s.projectPath == path) ∘
      (fun s => if s.id == id then f s else s)) = (fun s : WorkSession => s.projectPath == path) := by
    funext x
    by_cases h : x.id = id <;> simp [h, hf]
  rw [hpg]

/-- The project-path predicate is invariant under the keyed session rewrite. -/
theorem pathPred_comp_update (path id : String) (u : SessionUpdate) :
    ((fun s : WorkSession => s.projectPath == path) ∘
      (fun s => if s.id == id then mergeSessionUpdate u s else s))
      = (fun s : WorkSession => s.projectPath == path) := by
  funext x
  by_cases h : x.id = id <;> simp [h, mergeSessionUpdate_projectPath]

/-- Decision upserts leave the session table untouched. -/
theorem upsertProjectDecision_sessions (st : Store) (d : ProjectDecision) :
    (st.upsertProjectDecision d).sessions = st.sessions := by
  unfold Store.upsertProjectDecision
  split <;> rfl

/-- Folding decision upserts leaves the session table untouched. -/
theorem foldl_upsert_sessions (projectPath : String) (ds : List (String × String)) :
    ∀ st : Store,
      (ds.foldl
        (fun acc kv => acc.upsertProjectDecision
          { id := "", projectPath := projectPath, decisionKey := kv.1, decisionValue := kv.2 })
        st).sessions = st.sessions := by
  induction ds with
  | nil => intro st; rfl
  | cons d ds ih =>
    intro st
    rw [List.foldl_cons, ih, upsertProjectDecision_sessions]

/-- The full tool method has the same session table as its session part. -/
theorem updateWorkSession_sessions (st : Store) (projectPath newId : String) (u : SessionUpdate) :
    (updateWorkSession st projectPath newId u).sessions
      = (updateWorkSessionCore st projectPath newId u).sessions := by
  unfold updateWorkSession
  cases u.decisions with
  | none => rfl
  | some ds => exact foldl_upsert_sessions projectPath ds _

/-- Merging an update into the session it just seeded is the identity. -/
theorem mergeSessionUpdate_seed (u : SessionUpdate) (newId projectPath : String) :
    mergeSessionUpdate u (seededSession projectPath newId u)
      = seededSession projectPath newId u := by
  unfold mergeSessionUpdate seededSession
  rcases u with ⟨f, ft, t, d⟩
  cases f <;> cases t <;> simp

/-- Looking up the current session right after creating the seeded one in a
store that had none yields exactly the seeded session. -/
theorem getCurrentWorkSession_createSeeded (st : Store) (projectPath newId : String)
    (u : SessionUpdate) (hnone : st.getCurrentWorkSession projectPath = none) :
    (st.createWorkSession (seededSession projectPath newId u)).getCurrentWorkSession projectPath
      = some (seededSession projectPath newId u) := by
  unfold Store.getCurrentWorkSession at hnone
  unfold Store.getCurrentWorkSession Store.createWorkSession
  rw [List.find?_append, hnone, Option.none_or]
  exact List.find?_cons_of_pos _ (by simp [seededSession])

/-! Claim theorems. -/

/-- C1 (amended): for every stored concept set and every supplied positive
limit L, `getSemanticInsights` returns at most L insight records, truncation
happens only after the type/name filter is applied, and `totalAvailable`
equals the number of concepts passing the filter regardless of L; a concept
passes iff the type filter is absent or empty or equals its type, and the
query is absent or empty or a case-insensitive substring of its name. (The
original claim, quantified over every supplied limit including 0, fails: a
supplied limit of 0 is falsy and replaced by the default of 10.) -/
theorem getSemanticInsights_limit_filter_spec
    (concepts : List SemanticConcept) (query conceptType : Option String) (L : Nat)
    (hL : 1 ≤ L) :
    (getSemanticInsights concepts query conceptType (some L)).insights.length ≤ L ∧
    (getSemanticInsights concepts query conceptType (some L)).totalAvailable
      = (concepts.filter (conceptPasses query conceptType)).length ∧
    (getSemanticInsights concepts query conceptType (some L)).insights
      = ((concepts.filter (conceptPasses query conceptType)).take L).map conceptToInsight ∧
    (∀ c : SemanticConcept, conceptPasses query conceptType c = true ↔
      ((∀ t, conceptType = some t → t = "" ∨ c.conceptType = t) ∧
       (∀ s, query = some s → s = "" ∨
          strContainsSub (jsToLower c.conceptName) (jsToLower s) = true))) := by
  have hL0 : L ≠ 0 := by omega
  have hlim : jsOrDefaultNat (some L) 10 = L := by simp [jsOrDefaultNat, hL0]
  refine ⟨?_, rfl, ?_, ?_⟩
  · simp only [getSemanticInsights, hlim, List.length_map, List.length_take]
    omega
  · simp only [getSemanticInsights, hlim]
  · intro c
    unfold conceptPasses
    rcases conceptType with _ | t <;> rcases query with _ | s
    · simp
    · by_cases hs : s = "" <;> simp [hs]
    · by_cases ht : t = "" <;> simp [ht]
    · by_cases ht : t = "" <;> by_cases hs : s = "" <;> simp [ht, hs]

/-- C1 witness: at limit 1 on a one-concept store the theorem yields concrete
bounds. -/
theorem getSemanticInsights_limit_filter_spec_witness :
    (getSemanticInsights [sampleConcept] none none (some 1)).insights.length ≤ 1 ∧
    (getSemanticInsights [sampleConcept] none none (some 1)).totalAvailable = 1 := by
  have h := getSemanticInsights_limit_filter_spec [sampleConcept] none none 1 (by decide)
  exact ⟨h.1, h.2.1.trans (by decide)⟩

/-- C1 counterexample: with one stored concept and a supplied limit of 0, the
call returns 1 record, so it does not return at most 0 records as the claim
(quantified over every supplied limit) requires. -/
theorem getSemanticInsights_zero_limit_counterexample :
    (getSemanticInsights [sampleConcept] none none (some 0)).insights.length = 1 ∧
    ¬((getSemanticInsights [sampleConcept] none none (some 0)).insights.length ≤ 0) := by
  constructor <;> decide

/-- C9: at the `getSemanticInsights` function boundary a supplied limit of 0
is treated the same as an absent limit (the default of 10 applies), so the
caller receives up to 10 records rather than zero. -/
theorem getSemanticInsights_zero_limit_default_spec
    (concepts : List SemanticConcept) (query conceptType : Option String) :
    getSemanticInsights concepts query conceptType (some 0)
      = getSemanticInsights concepts query conceptType none ∧
    (getSemanticInsights concepts query conceptType (some 0)).insights.length
      = min 10 (concepts.filter (conceptPasses query conceptType)).length := by
  constructor
  · rfl
  · simp [getSemanticInsights, jsOrDefaultNat]

/-- C4: when `includeFileRouting` is missing it is treated as include, so the
response carries exactly the router result (present when the router yields
one, entirely absent when it yields none); the same holds for an explicit
true; an explicit false never yields a `fileRouting` field. -/
theorem predictCodingApproach_fileRouting_spec
    (prediction : ApproachPrediction) (routing : Option FileRouting) :
    (predictCodingApproach prediction routing none).fileRouting = routing ∧
    (predictCodingApproach prediction routing (some true)).fileRouting = routing ∧
    (predictCodingApproach prediction routing (some false)).fileRouting = none := by
  rcases routing with _ | r <;> simp [predictCodingApproach]

/-- Truncated code never exceeds 153 characters. -/
theorem truncateCode_length_le (code : List Char) : (truncateCode code).length ≤ 153 := by
  unfold truncateCode
  split
  · omega
  · simp only [List.length_append, List.length_take, List.length_cons, List.length_nil]
    omega

/-- Shaped example lists satisfy the 2-example and 153-character bounds. -/
theorem shapeExamples_bounds (exs : List PatternExample) :
    (shapeExamples exs).length ≤ 2 ∧ ∀ e ∈ shapeExamples exs, e.length ≤ 153 := by
  constructor
  · simp only [shapeExamples, List.length_map, List.length_take]
    omega
  · intro e he
    simp only [shapeExamples, List.mem_map] at he
    obtain ⟨ex, _, rfl⟩ := he
    exact truncateCode_length_le _

/-- C5: every pattern emitted by `getPatternRecommendations` and every
`preferredPatterns` entry of the developer profile carries at most 2 example
snippets, each of length at most 153; examples of length at most 150 pass
through unchanged and longer examples are cut to 150 characters with the
three-character ellipsis appended. -/
theorem patternExamples_truncation_spec
    (relevantPatterns : List DeveloperPattern) (includeRelatedFiles : Option Bool)
    (relatedFiles : List String) (patterns : List DeveloperPattern) :
    (∀ r ∈ (getPatternRecommendations relevantPatterns includeRelatedFiles
        relatedFiles).recommendations,
      r.examples.length ≤ 2 ∧ ∀ e ∈ r.examples, e.length ≤ 153) ∧
    (∀ r ∈ developerProfilePreferredPatterns patterns,
      r.examples.length ≤ 2 ∧ ∀ e ∈ r.examples, e.length ≤ 153) ∧
    (∀ code : List Char,
      (code.length ≤ 150 → truncateCode code = code) ∧
      (150 < code.length →
        truncateCode code = code.take 150 ++ ['.', '.', '.'] ∧
        (truncateCode code).length = 153)) := by
  refine ⟨?_, ?_, ?_⟩
  · intro r hr
    simp only [getPatternRecommendations, List.mem_map] at hr
    obtain ⟨p, _, rfl⟩ := hr
    exact shapeExamples_bounds p.examples
  · intro r hr
    simp only [developerProfilePreferredPatterns, List.mem_map] at hr
    obtain ⟨p, _, rfl⟩ := hr
    exact shapeExamples_bounds p.examples
  · intro code
    constructor
    · intro h
      simp [truncateCode, h]
    · intro h
      have hne : ¬(code.length ≤ 150) := by omega
      constructor
      · simp [truncateCode, hne]
      · simp only [truncateCode, hne, if_false, List.length_append, List.length_take,
          List.length_cons, List.length_nil]
        omega

/-- A concrete 160-character code snippet. -/
def sampleLongCode : List Char := List.replicate 160 'x'

/-- A concrete stored pattern whose first example is longer than 150
characters. -/
def samplePattern : DeveloperPattern :=
  { patternId := "factory_pattern", description := none, frequency := 3,
    examples := [⟨some sampleLongCode⟩, ⟨none⟩, ⟨some ['a']⟩], confidence := 1 }

/-- C5 witness: on a concrete over-long example the theorem yields the exact
truncation and the 2-example bound. -/
theorem patternExamples_truncation_spec_witness :
    (recommendationOfPattern samplePattern).examples.length ≤ 2 ∧
    truncateCode sampleLongCode = sampleLongCode.take 150 ++ ['.', '.', '.'] ∧
    (truncateCode sampleLongCode).length = 153 := by
  have h := patternExamples_truncation_spec [samplePattern] none [] []
  have h1 := h.1 (recommendationOfPattern samplePattern)
    (by simp [getPatternRecommendations])
  have h3 := (h.2.2 sampleLongCode).2 (by simp [sampleLongCode])
  exact ⟨h1.1, h3.1, h3.2⟩

/-- C7: the blueprint architecture label follows the fixed precedence over
resolved frameworks and key directories: any framework containing "react"
(case-insensitively) wins outright — even when a "services" directory is also
present — then "express", then "fastapi", then a "services" directory, then a
"components" directory, then "models" and "views" directories together, and
"Modular" otherwise. -/
theorem inferArchitecture_precedence_spec
    (frameworks : List String) (dirs : List KeyDirectory) :
    (frameworks.any (fun f => strContainsSub (jsToLower f) "react") = true →
      inferArchitectureFromBlueprint frameworks dirs = "Component-Based (React)") ∧
    (frameworks.any (fun f => strContainsSub (jsToLower f) "react") = false →
      frameworks.any (fun f => strContainsSub (jsToLower f) "express") = true →
      inferArchitectureFromBlueprint frameworks dirs = "REST API (Express)") ∧
    (frameworks.any (fun f => strContainsSub (jsToLower f) "react") = false →
      frameworks.any (fun f => strContainsSub (jsToLower f) "express") = false →
      frameworks.any (fun f => strContainsSub (jsToLower f) "fastapi") = true →
      inferArchitectureFromBlueprint frameworks dirs = "REST API (FastAPI)") ∧
    (frameworks.any (fun f => strContainsSub (jsToLower f) "react") = false →
      frameworks.any (fun f => strContainsSub (jsToLower f) "express") = false →
      frameworks.any (fun f => strContainsSub (jsToLower f) "fastapi") = false →
      dirs.any (fun d => d.directoryType == "services") = true →
      inferArchitectureFromBlueprint frameworks dirs = "Service-Oriented") ∧
    (frameworks.any (fun f => strContainsSub (jsToLower f) "react") = false →
      frameworks.any (fun f => strContainsSub (jsToLower f) "express") = false →
      frameworks.any (fun f => strContainsSub (jsToLower f) "fastapi") = false →
      dirs.any (fun d => d.directoryType == "services") = false →
      dirs.any (fun d => d.directoryType == "components") = true →
      inferArchitectureFromBlueprint frameworks dirs = "Component-Based") ∧
    (frameworks.any (fun f => strContainsSub (jsToLower f) "react") = false →
      frameworks.any (fun f => strContainsSub (jsToLower f) "express") = false →
      frameworks.any (fun f => strContainsSub (jsToLower f) "fastapi") = false →
      dirs.any (fun d => d.directoryType == "services") = false →
      dirs.any (fun d => d.directoryType == "components") = false →
      dirs.any (fun d => d.directoryType == "models") = true →
      dirs.any (fun d => d.directoryType == "views") = true →
      inferArchitectureFromBlueprint frameworks dirs = "MVC Pattern") ∧
    (frameworks.any (fun f => strContainsSub (jsToLower f) "react") = false →
      frameworks.any (fun f => strContainsSub (jsToLower f) "express") = false →
      frameworks.any (fun f => strContainsSub (jsToLower f) "fastapi") = false →
      dirs.any (fun d => d.directoryType == "services") = false →
      dirs.any (fun d => d.directoryType == "components") = false →
      (dirs.any (fun d => d.directoryType == "models") = false ∨
        dirs.any (fun d => d.directoryType == "views") = false) →
      inferArchitectureFromBlueprint frameworks dirs = "Modular") := by
  refine ⟨?_, ?_, ?_, ?_, ?_, ?_, ?_⟩
  · intro h1
    simp [inferArchitectureFromBlueprint, h1]
  · intro h1 h2
    simp [inferArchitectureFromBlueprint, h1, h2]
  · intro h1 h2 h3
    simp [inferArchitectureFromBlueprint, h1, h2, h3]
  · intro h1 h2 h3 h4
    simp [inferArchitectureFromBlueprint, h1, h2, h3, h4]
  · intro h1 h2 h3 h4 h5
    simp [inferArchitectureFromBlueprint, h1, h2, h3, h4, h5]
  · intro h1 h2 h3 h4 h5 h6 h7
    simp [inferArchitectureFromBlueprint, h1, h2, h3, h4, h5, h6, h7]
  · intro h1 h2 h3 h4 h5 h6
    rcases h6 with h6 | h6 <;>
      simp [inferArchitectureFromBlueprint, h1, h2, h3, h4, h5, h6]

/-- A concrete key directory typed "services". -/
def sampleServicesDir : KeyDirectory := ⟨"src/services", "services"⟩

/-- C7 witness: a React-flavoured framework wins even though a services
directory is present. -/
theorem inferArchitecture_precedence_spec_witness :
    inferArchitectureFromBlueprint ["React"] [sampleServicesDir]
      = "Component-Based (React)" :=
  (inferArchitecture_precedence_spec ["React"] [sampleServicesDir]).1 (by decide)

/-- C6 (amended): the learning-status block has `hasIntelligence` true iff the
concept count or the pattern count is nonzero, `isStale` always false, the
recommendation "ready" when intelligence is present and "learning_recommended"
otherwise, and any failure while computing learning status degrades to the
safe default of no intelligence with a recommend-learning outcome rather than
failing the blueprint request — but the recommendation string on the failure
path is "learning_needed", not "learning_recommended" as the original claim
states. -/
theorem getLearningStatus_spec (concepts : List SemanticConcept)
    (patterns : List DeveloperPattern) (e : String) :
    ((getLearningStatus (Except.ok (concepts, patterns))).hasIntelligence = true ↔
      concepts ≠ [] ∨ patterns ≠ []) ∧
    (∀ fetch, (getLearningStatus fetch).isStale = false) ∧
    ((getLearningStatus (Except.ok (concepts, patterns))).recommendation
      = if concepts ≠ [] ∨ patterns ≠ [] then "ready" else "learning_recommended") ∧
    ((getLearningStatus (Except.ok (concepts, patterns))).conceptsStored = concepts.length ∧
     (getLearningStatus (Except.ok (concepts, patterns))).patternsStored = patterns.length) ∧
    (getLearningStatus (Except.error e)
      = ⟨false, false, 0, 0, "learning_needed",
         "No intelligence data available. Learning needed for optimal functionality."⟩) := by
  refine ⟨?_, ?_, ?_, ⟨rfl, rfl⟩, rfl⟩
  · simp [getLearningStatus, List.length_eq_zero]
  · intro fetch
    rcases fetch with ⟨c, p⟩ | err <;> rfl
  · by_cases hc : concepts = [] <;> by_cases hp : patterns = [] <;>
      simp [getLearningStatus, hc, hp, List.length_eq_zero]

/-- C6 witness: a store with one concept and no patterns has intelligence, and
a concrete failure degrades to the "learning_needed" recommendation. -/
theorem getLearningStatus_spec_witness :
    (getLearningStatus (Except.ok ([sampleConcept], []))).hasIntelligence = true ∧
    (getLearningStatus (Except.error "db unavailable")).recommendation
      = "learning_needed" := by
  have h := getLearningStatus_spec [sampleConcept] [] "db unavailable"
  refine ⟨h.1.mpr (Or.inl (by simp)), ?_⟩
  rw [h.2.2.2.2]

/-- C6 counterexample: on the failure path the recommendation is the string
"learning_needed", which differs from the "learning_recommended" the claim
asserts for that path. -/
theorem getLearningStatus_failure_recommendation_counterexample :
    (getLearningStatus (Except.error "database read failed")).recommendation
      = "learning_needed" ∧
    (getLearningStatus (Except.error "database read failed")).recommendation
      ≠ "learning_recommended" := by
  constructor <;> decide

/-- An object insert never empties the map. -/
theorem objInsert_ne_nil {α : Type} (m : List (String × α)) (k : String) (v : α) :
    objInsert m k v ≠ [] := by
  unfold objInsert
  split
  case isTrue h =>
    intro hm
    rw [List.map_eq_nil_iff] at hm
    subst hm
    simp at h
  case isFalse h => simp

/-- Folding object inserts over a non-empty map keeps it non-empty. -/
theorem foldl_objInsert_ne_nil (fs : List FeatureMapEntry) :
    ∀ m : List (String × List String), m ≠ [] →
      fs.foldl (fun acc f => objInsert acc f.featureName f.primaryFiles) m ≠ [] := by
  induction fs with
  | nil => intro m hm; exact hm
  | cons a as ih =>
    intro m hm
    rw [List.foldl_cons]
    exact ih _ (objInsert_ne_nil _ _ _)

/-- The folded feature map is non-empty exactly when some feature row exists. -/
theorem featureMapOf_ne_nil_iff (features : List FeatureMapEntry) :
    featureMapOf features ≠ [] ↔ features ≠ [] := by
  cases features with
  | nil => simp [featureMapOf]
  | cons f fs =>
    simp only [ne_eq, reduceCtorEq, not_false_iff, iff_true]
    unfold featureMapOf
    rw [List.foldl_cons]
    exact foldl_objInsert_ne_nil fs _ (objInsert_ne_nil _ _ _)

/-- C8: the feature-map inclusion flag defaults to true when omitted, and the
`featureMap` field appears in the blueprint response exactly when inclusion is
(or defaults to) true and at least one feature row exists; otherwise the field
is entirely absent. -/
theorem getProjectBlueprint_featureMap_spec (eps : List EntryPoint)
    (dirs : List KeyDirectory) (features : List FeatureMapEntry)
    (fetch : Except String (List SemanticConcept × List DeveloperPattern))
    (inc : Option Bool) :
    (getProjectBlueprintOp eps dirs features fetch none).featureMap
      = (getProjectBlueprintOp eps dirs features fetch (some true)).featureMap ∧
    ((getProjectBlueprintOp eps dirs features fetch inc).featureMap).isSome
      = (parsedIncludeFeatureMap inc && !features.isEmpty) := by
  constructor
  · rfl
  · rcases inc with _ | b
    · cases features with
      | nil =>
        simp [getProjectBlueprintOp, getProjectBlueprintCore, parsedIncludeFeatureMap,
          featureMapOf]
      | cons f fs =>
        have hne : featureMapOf (f :: fs) ≠ [] :=
          (featureMapOf_ne_nil_iff (f :: fs)).mpr (by simp)
        have hlen : 0 < (featureMapOf (f :: fs)).length := List.length_pos.mpr hne
        simp [getProjectBlueprintOp, getProjectBlueprintCore, parsedIncludeFeatureMap, hlen]
    · cases b
      · simp [getProjectBlueprintOp, getProjectBlueprintCore, parsedIncludeFeatureMap]
      · cases features with
        | nil =>
          simp [getProjectBlueprintOp, getProjectBlueprintCore, parsedIncludeFeatureMap,
            featureMapOf]
        | cons f fs =>
          have hne : featureMapOf (f :: fs) ≠ [] :=
            (featureMapOf_ne_nil_iff (f :: fs)).mpr (by simp)
          have hlen : 0 < (featureMapOf (f :: fs)).length := List.length_pos.mpr hne
          simp [getProjectBlueprintOp, getProjectBlueprintCore, parsedIncludeFeatureMap, hlen]

/-- C2 (amended): when no current work session exists for the project path,
exactly one session is created, with currentFiles and pendingTasks seeded from
the update, lastFeature seeded from the update feature, and completedTasks and
blockers empty; when a session already exists, a present files field replaces
currentFiles, a present tasks field replaces pendingTasks, absent fields
retain their prior values, and a present feature replaces lastFeature only
when it is a non-empty string — an empty-string feature is falsy in the
source's truthiness test and is ignored, which is the one departure from the
original claim. A second contribution supplying only tasks therefore preserves
the files and feature set by the first contribution. -/
theorem updateWorkSession_merge_spec (st : Store) (projectPath newId : String)
    (u : SessionUpdate) :
    (st.getCurrentWorkSession projectPath = none →
      (updateWorkSession st projectPath newId u).getCurrentWorkSession projectPath
        = some ⟨newId, projectPath, u.files.getD [], [], u.tasks.getD [], [], u.feature⟩ ∧
      (updateWorkSession st projectPath newId u).sessions.countP
          (fun s => s.projectPath == projectPath)
        = 1) ∧
    (∀ s, st.getCurrentWorkSession projectPath = some s →
      (updateWorkSession st projectPath newId u).getCurrentWorkSession projectPath
        = some ⟨s.id, s.projectPath,
            (match u.files with | some fs => fs | none => s.currentFiles),
            s.completedTasks,
            (match u.tasks with | some ts => ts | none => s.pendingTasks),
            s.blockers,
            (if featTruthy u.feature then u.feature else s.lastFeature)⟩) := by
  have hcur : ∀ st' : Store,
      (updateWorkSession st' projectPath newId u).getCurrentWorkSession projectPath
        = (updateWorkSessionCore st' projectPath newId u).getCurrentWorkSession projectPath := by
    intro st'
    unfold Store.getCurrentWorkSession
    rw [updateWorkSession_sessions]
  constructor
  · intro hnone
    have h1 := getCurrentWorkSession_createSeeded st projectPath newId u hnone
    have hcore : updateWorkSessionCore st projectPath newId u
        = (if hasUpdates u then
            (st.createWorkSession (seededSession projectPath newId u)).updateWorkSession
              (seededSession projectPath newId u).id (mergeSessionUpdate u)
          else st.createWorkSession (seededSession projectPath newId u)) := by
      unfold updateWorkSessionCore
      rw [hnone]
      show applyTruthyUpdates
          (st.createWorkSession (seededSession projectPath newId u)) projectPath u = _
      unfold applyTruthyUpdates
      rw [h1]
    constructor
    · rw [hcur, hcore]
      show _ = some (seededSession projectPath newId u)
      cases hU : hasUpdates u with
      | true =>
        rw [if_pos rfl]
        rw [getCurrentWorkSession_updateRecord _ _ _ _
          (fun x => mergeSessionUpdate_projectPath u x)]
        rw [h1]
        simp [mergeSessionUpdate_seed]
      | false =>
        rw [if_neg (by simp)]
        exact h1
    · rw [updateWorkSession_sessions, hcore]
      have hbase : ((st.createWorkSession (seededSession projectPath newId u)).sessions).countP
          (fun s => s.projectPath == projectPath) = 1 := by
        unfold Store.createWorkSession
        rw [List.countP_append]
        have h0 : st.sessions.countP (fun s => s.projectPath == projectPath) = 0 := by
          unfold Store.getCurrentWorkSession at hnone
          exact List.countP_eq_zero.mpr (List.find?_eq_none.mp hnone)
        rw [h0]
        simp [List.countP_cons, seededSession]
      cases hU : hasUpdates u with
      | true =>
        rw [if_pos rfl]
        show (((st.createWorkSession (seededSession projectPath newId u)).sessions).map
            (fun s => if s.id == (seededSession projectPath newId u).id
              then mergeSessionUpdate u s else s)).countP
            (fun s => s.projectPath == projectPath) = 1
        rw [List.countP_map, pathPred_comp_update]
        exact hbase
      | false =>
        rw [if_neg (by simp)]
        exact hbase
  · intro s hs
    have hcore : updateWorkSessionCore st projectPath newId u
        = (if hasUpdates u then st.updateWorkSession s.id (mergeSessionUpdate u) else st) := by
      unfold updateWorkSessionCore
      rw [hs]
      show applyTruthyUpdates st projectPath u = _
      unfold applyTruthyUpdates
      rw [hs]
    rw [hcur, hcore]
    cases hU : hasUpdates u with
    | true =>
      rw [if_pos rfl]
      rw [getCurrentWorkSession_updateRecord _ _ _ _
        (fun x => mergeSessionUpdate_projectPath u x)]
      rw [hs]
      show some (if s.id == s.id then mergeSessionUpdate u s else s) = _
      rw [if_pos (by simp)]
      rfl
    | false =>
      rw [if_neg (by simp)]
      rw [hs]
      have hf : u.files = none := by
        cases h : u.files with
        | none => rfl
        | some v => rw [hasUpdates, h] at hU; simp at hU
      have ht : u.tasks = none := by
        cases h : u.tasks with
        | none => rfl
        | some v => rw [hasUpdates, h] at hU; simp at hU
      have hft : featTruthy u.feature = false := by
        rw [hasUpdates] at hU
        rcases Bool.or_eq_false_iff.mp hU with ⟨h1, h2⟩
        exact (Bool.or_eq_false_iff.mp h1).2
      rw [hf, ht, hft]
      rfl

/-- The update supplied by a first contribution: files and a feature. -/
def sampleFirstUpdate : SessionUpdate := ⟨some ["a.ts"], some "login", none, none⟩

/-- The update supplied by a second contribution: only tasks. -/
def sampleSecondUpdate : SessionUpdate := ⟨none, none, some ["t1"], none⟩

/-- C2 witness: on an empty store the first contribution creates exactly one
seeded session, and the second contribution (tasks only) preserves the files
and feature set by the first while replacing the pending tasks. -/
theorem updateWorkSession_merge_spec_witness :
    ((updateWorkSession emptyStore "p" "n1" sampleFirstUpdate).getCurrentWorkSession "p"
        = some ⟨"n1", "p", ["a.ts"], [], [], [], some "login"⟩ ∧
      (updateWorkSession emptyStore "p" "n1" sampleFirstUpdate).sessions.countP
          (fun s => s.projectPath == "p") = 1) ∧
    (updateWorkSession (updateWorkSession emptyStore "p" "n1" sampleFirstUpdate)
        "p" "n2" sampleSecondUpdate).getCurrentWorkSession "p"
      = some ⟨"n1", "p", ["a.ts"], [], ["t1"], [], some "login"⟩ := by
  have h1 := (updateWorkSession_merge_spec emptyStore "p" "n1" sampleFirstUpdate).1 (by decide)
  have h2 := (updateWorkSession_merge_spec
      (updateWorkSession emptyStore "p" "n1" sampleFirstUpdate) "p" "n2" sampleSecondUpdate).2
    ⟨"n1", "p", ["a.ts"], [], [], [], some "login"⟩ (by decide)
  exact ⟨⟨h1.1, h1.2⟩, h2⟩

/-- C2 counterexample: with an existing session whose lastFeature is "login",
an update that carries the present (but empty) feature field leaves
lastFeature at "login" rather than overwriting it as the original claim — all
fields present in the update are overwritten — requires. -/
theorem updateWorkSession_empty_feature_counterexample :
    (updateWorkSession ⟨[], [⟨"s1", "p", ["a.ts"], [], [], [], some "login"⟩], []⟩
        "p" "n9" ⟨none, some "", none, none⟩).getCurrentWorkSession "p"
      = some ⟨"s1", "p", ["a.ts"], [], [], [], some "login"⟩ ∧
    (some "login" : Option String) ≠ some "" := by
  constructor <;> decide

/-- C3: for every contribution whose confidence lies outside the interval
from 0 to 1, the operation fails validation — the schema parse happens before
the try block, so the validation error surfaces to the caller — and nothing is
persisted: the store (insights, sessions and decisions alike) is returned
unchanged. -/
theorem contributeInsights_validation_spec
    (a : AIInsightArgs) (newId projectPath sessionId : String) (mergeThrows : Option String)
    (st : Store) (hconf : a.confidence < 0 ∨ 1 < a.confidence) :
    (∃ e, (contributeInsights a newId projectPath sessionId mergeThrows st).1
        = Except.error e) ∧
    (contributeInsights a newId projectPath sessionId mergeThrows st).2 = st := by
  have hval : ∃ e, validateAIInsights a = Except.error e := by
    unfold validateAIInsights
    split_ifs with h1 h2 h3 h4
    · exact ⟨_, rfl⟩
    · exact ⟨_, rfl⟩
    · exact ⟨_, rfl⟩
    · exact ⟨_, rfl⟩
    · rcases hconf with h | h
      · exact absurd h h2
      · exact absurd h h3
  obtain ⟨e, he⟩ := hval
  unfold contributeInsights
  rw [he]
  exact ⟨⟨e, rfl⟩, rfl⟩

/-- A concrete contribution whose confidence of 2 lies outside the valid
interval. -/
def sampleInvalidArgs : AIInsightArgs :=
  { insightType := "best_practice", content := [("practice", "early returns")],
    confidence := 2, sourceAgent := "agent-a", impactPrediction := none,
    sessionUpdate := none }

/-- C3 witness: the out-of-range confidence of 2 fails validation on the empty
store, which is returned unchanged. -/
theorem contributeInsights_validation_spec_witness :
    (sampleInvalidArgs.confidence < 0 ∨ 1 < sampleInvalidArgs.confidence) ∧
    ((∃ e, (contributeInsights sampleInvalidArgs "i1" "/proj" "s1" none emptyStore).1
        = Except.error e) ∧
     (contributeInsights sampleInvalidArgs "i1" "/proj" "s1" none emptyStore).2
        = emptyStore) :=
  ⟨Or.inr (by decide),
    contributeInsights_validation_spec sampleInvalidArgs "i1" "/proj" "s1" none emptyStore
      (Or.inr (by decide))⟩

/-- C10: the insight row is inserted before the session merge runs; when the
insert succeeds but the session merge or decision upsert throws, the operation
returns a structured failure with an empty insight identifier and a
descriptive message, while the already-inserted insight remains persisted —
the insight write is not rolled back and sessions and decisions are left as
they were. -/
theorem contributeInsights_partial_persistence_spec
    (a : AIInsightArgs) (newId projectPath sessionId err : String) (u : SessionUpdate)
    (st : Store) (hval : validateAIInsights a = Except.ok ())
    (hsu : a.sessionUpdate = some u) :
    (contributeInsights a newId projectPath sessionId (some err) st).1
      = Except.ok ⟨false, "", "Failed to contribute insight: " ++ err, none⟩ ∧
    (contributeInsights a newId projectPath sessionId (some err) st).2.insights
      = st.insights ++ [mkInsightRow a newId] ∧
    (contributeInsights a newId projectPath sessionId (some err) st).2.sessions
      = st.sessions ∧
    (contributeInsights a newId projectPath sessionId (some err) st).2.decisions
      = st.decisions := by
  unfold contributeInsights
  rw [hval, hsu]
  exact ⟨rfl, rfl, rfl, rfl⟩

/-- A concrete valid contribution carrying a session update. -/
def sampleValidArgs : AIInsightArgs :=
  { insightType := "best_practice", content := [("practice", "early returns")],
    confidence := 1, sourceAgent := "agent-a", impactPrediction := none,
    sessionUpdate := some ⟨some ["a.ts"], some "login", none, none⟩ }

/-- C10 witness: with a store exception injected during the session merge, the
concrete contribution returns the structured failure with an empty identifier
while its insight row is persisted in the store. -/
theorem contributeInsights_partial_persistence_spec_witness :
    (contributeInsights sampleValidArgs "i1" "/proj" "s1" (some "SQLITE_BUSY") emptyStore).1
      = Except.ok ⟨false, "", "Failed to contribute insight: " ++ "SQLITE_BUSY", none⟩ ∧
    (contributeInsights sampleValidArgs "i1" "/proj" "s1" (some "SQLITE_BUSY") emptyStore).2.insights
      = [] ++ [mkInsightRow sampleValidArgs "i1"] := by
  have h := contributeInsights_partial_persistence_spec sampleValidArgs "i1" "/proj" "s1"
    "SQLITE_BUSY" ⟨some ["a.ts"], some "login", none, none⟩ emptyStore (by decide) rfl
  exact ⟨h.1, h.2.1⟩

end InMemoria
